import Mathlib

/-!
Verification development for the `hff_plots` plotting module
(`src/hff_plots.py`).

The module has four functions: `plot_forecast_heat_fluxes`, `plot_met`,
`plot_cooling_rate` and `plot_parcel_cooling`.  The only routine with
algorithmic content is `plot_parcel_cooling`, which derives one cooling
trajectory per release step from a cumulative sum of the per-hour cooling
rates.  The pandas/plotly/matplotlib data manipulation performed by the
source is embedded shallowly below:

* a pandas `Series` with a default `RangeIndex` becomes an optional name
  plus a list of rationals (label access `s[i]` is lookup at position `i`,
  raising `KeyError` past the end, exactly as pandas does on a
  `RangeIndex`);
* a pandas `DataFrame` becomes an ordered association list from column
  labels to columns (column assignment `df[l] = c` replaces the column in
  place when the label exists and appends it otherwise, as pandas does);
* `pd.melt(df.reset_index(), id_vars='index')` becomes `meltWide`,
  producing one `(time index, column label, value)` row per cell, column
  by column in column order;
* matplotlib's `pyplot` layer carries process-global state (the registry
  of figures created through `plt.subplots`, and the current figure that
  `plt.ylabel` acts on); it is embedded by explicit state passing of the
  figure registry;
* numbers are embedded as `ℚ`; an exception raised by the source becomes
  an `Except` error value.
-/

/-- Errors the embedded pandas operations can raise: `KeyError` with an
integer label, `KeyError` with a string label, `IndexError`/positional
failure for out-of-range positional access, and `ValueError` (raised when
a multi-column selection is assigned to a single column, or when
`reset_index` cannot insert the index because a column of that name
already exists; the string names the offending column). -/
inductive PyError where
  | keyNat (i : ℕ)
  | keyStr (s : String)
  | outOfRange (i : ℕ)
  | valueError (s : String)
deriving DecidableEq

/-- A pandas `Series` with default `RangeIndex`: an optional name and the
list of values.  (`cooling_rate` in `plot_parcel_cooling` and
`plot_cooling_rate` is such a series.) -/
structure Series where
  name : Option String
  values : List ℚ
deriving DecidableEq

/-- A wide-form DataFrame over column labels of type `α`: an ordered
association list from column label to column values. -/
abbrev Wide (α : Type) : Type := List (α × List ℚ)

/-- The column labels of a wide table, in order. -/
def labelsOf {α : Type} (w : Wide α) : List α := w.map Prod.fst

/-- Column lookup `df[l]`: the first column with the given label. -/
def getCol {α : Type} [DecidableEq α] : Wide α → α → Option (List ℚ)
  | [], _ => none
  | (l', c) :: w, l => if l' = l then some c else getCol w l

/-- Column assignment `df[l] = c`: replace the column in place when the
label is present, append the new column at the end otherwise (pandas
semantics for `DataFrame.__setitem__`). -/
def setCol {α : Type} [DecidableEq α] : Wide α → α → List ℚ → Wide α
  | [], l, c => [(l, c)]
  | (l', c') :: w, l, c =>
      if l' = l then (l, c) :: w else (l', c') :: setCol w l c

/-- Apply a function to every value of every column (`df + T`, or the
boolean-mask assignment `df[df < 0] = 0`). -/
def mapVals {α : Type} (f : ℚ → ℚ) (w : Wide α) : Wide α :=
  w.map (fun p => (p.1, p.2.map f))

/-- Rows of one melted column: one `(time index, label, value)` triple per
entry, indices counting up from `t`. -/
def rowsOf {α : Type} (l : α) : ℕ → List ℚ → List (ℕ × α × ℚ)
  | _, [] => []
  | t, x :: xs => (t, l, x) :: rowsOf l (t + 1) xs

/-- `pd.melt(df.reset_index(), id_vars='index')` on a wide table whose
index is the default `RangeIndex`: all rows of the first column, then all
rows of the second column, and so on, in column order. -/
def meltWide {α : Type} : Wide α → List (ℕ × α × ℚ)
  | [] => []
  | (l, c) :: w => rowsOf l 0 c ++ meltWide w

/-- Running cumulative sum with accumulator (`Series.cumsum`). -/
def cumsumAux : ℚ → List ℚ → List ℚ
  | _, [] => []
  | acc, x :: xs => (acc + x) :: cumsumAux (acc + x) xs

/-- `Series.cumsum` on the values of a series. -/
def cumsum (xs : List ℚ) : List ℚ := cumsumAux 0 xs

/-- The positional slice assignment `c[0:i] = 0`: zero the first `i`
entries of the list, leave the rest unchanged. -/
def zeroFirst : ℕ → List ℚ → List ℚ
  | _, [] => []
  | 0, xs => xs
  | i + 1, _ :: xs => 0 :: zeroFirst i xs

/-- The clamp applied by `temps[temps < 0] = 0`: negative values become
`0`, others are unchanged. -/
def clamp (v : ℚ) : ℚ := if v < 0 then 0 else v

/-- Column labels of the wide `temps` table in `plot_parcel_cooling`:
the trajectory columns carry the integer release index (`temps[i] = c`
with `i : ℕ`), while the initial column created by
`pd.DataFrame(cooling_rate_hr)` carries the series name when the series
is named. -/
abbrev ColLabel : Type := ℕ ⊕ String

/-- The label of the single column of `pd.DataFrame(s)`: the series name
when present, and the integer `0` for an unnamed series (pandas names the
column `0` in that case). -/
def initLabel : Option String → ColLabel
  | none => Sum.inl 0
  | some nm => Sum.inr nm

/-- `cooling_rate_hr = cooling_rate * 60`: scalar multiplication of a
series keeps its name. -/
def coolingRateHr (s : Series) : Series :=
  ⟨s.name, s.values.map (fun x => x * 60)⟩

/-- One iteration body of the loop in `plot_parcel_cooling`:
`c = cooling_cumsum - cooling_cumsum[i]` followed by `c[0:i] = 0`.
The label access `cooling_cumsum[i]` raises `KeyError i` when `i` is not
in the `RangeIndex`, i.e. when `i ≥` the series length. -/
def trajColumn (C : List ℚ) (i : ℕ) : Except PyError (List ℚ) :=
  match C[i]? with
  | none => .error (.keyNat i)
  | some ci => .ok (zeroFirst i (C.map (fun x => x - ci)))

/-- The loop `for i in range(100): ... temps[i] = c` of
`plot_parcel_cooling`, over an explicit list of release indices: each
iteration either raises (propagating the `KeyError`) or assigns the
derived column to label `i`. -/
def assignLoop (C : List ℚ) : Wide ColLabel → List ℕ → Except PyError (Wide ColLabel)
  | w, [] => .ok w
  | w, i :: is =>
      match trajColumn C i with
      | .error e => .error e
      | .ok c => assignLoop C (setCol w (Sum.inl i) c) is

/-- The wide `temps` table of `plot_parcel_cooling` after the loop, the
`temps = temps + T_water_C` shift and the `temps[temps < 0] = 0` clamp;
an error of the loop propagates. -/
def parcelTemps (s : Series) (T : ℚ) : Except PyError (Wide ColLabel) :=
  match assignLoop (cumsum (coolingRateHr s).values)
      [(initLabel (coolingRateHr s).name, (coolingRateHr s).values)]
      (List.range 100) with
  | .error e => .error e
  | .ok w => .ok (mapVals clamp (mapVals (fun v => v + T) w))

/-- The long-form table of `plot_parcel_cooling` after
`pd.melt(temps.reset_index(), id_vars='index')`. -/
def parcelTempsLong (s : Series) (T : ℚ) : Except PyError (List (ℕ × ColLabel × ℚ)) :=
  match parcelTemps s T with
  | .error e => .error e
  | .ok w => .ok (meltWide w)

/-- The column labels of a wide-table result, when it is not an error. -/
def wideLabels (r : Except PyError (Wide ColLabel)) : Option (List ColLabel) :=
  match r with
  | .error _ => none
  | .ok w => some (labelsOf w)

/-- The value of trajectory column `l` at time step `t` in a wide-table
result (`none` when the call failed, the column is absent, or the step is
past the end of the column). -/
def wideValueAt (r : Except PyError (Wide ColLabel)) (l : ColLabel) (t : ℕ) : Option ℚ :=
  match r with
  | .error _ => none
  | .ok w => (getCol w l).bind (fun col => col[t]?)

/-- The number of rows of a long-table result, when it is not an error. -/
def longLength (r : Except PyError (List (ℕ × ColLabel × ℚ))) : Option ℕ :=
  match r with
  | .error _ => none
  | .ok rows => some rows.length

/-- Check that every melted value is nonnegative. -/
def nonnegLong (rows : List (ℕ × ColLabel × ℚ)) : Bool :=
  rows.all (fun r => decide (0 ≤ r.2.2))

/-- Check that every column of a wide table has exactly `n` values (one
per time step, no missing entries). -/
def fullColumns (w : Wide ColLabel) (n : ℕ) : Bool :=
  w.all (fun p => p.2.length == n)

/-- Combined output check for `plot_parcel_cooling`: whenever the call
returns a table, every value is nonnegative and every column is fully
populated; a failed call is vacuously fine. -/
def parcelOutputCheck (s : Series) (T : ℚ) : Bool :=
  match parcelTemps s T with
  | .error _ => true
  | .ok w => fullColumns w s.values.length && nonnegLong (meltWide w)

/-- Matplotlib figure content: which data the seaborn `lineplot` call of
the figure was given. -/
inductive MplContent where
  | rate (s : Series)
  | parcel (rows : List (ℕ × ColLabel × ℚ))
deriving DecidableEq

/-- A matplotlib figure: the `figsize` passed to `plt.subplots`, the
label set through `plt.ylabel`, and the plotted content. -/
structure MplFigure where
  figW : ℚ
  figH : ℚ
  ylab : Option String
  content : MplContent
deriving DecidableEq

/-- The process-global pyplot state: the registry of figures created
through `plt.subplots` and not yet closed (matplotlib's `Gcf`), in
creation order; the current figure is the most recently created one. -/
abbrev PyplotState : Type := List MplFigure

/-- `plot_cooling_rate`: `plt.subplots(figsize=(15, 5))` registers a new
figure in the global registry, `sns.lineplot` draws the series on it and
`plt.ylabel` labels the current (that same) figure.  Returns the figure
and the updated global state. -/
def plot_cooling_rate (s : Series) (st : PyplotState) : MplFigure × PyplotState :=
  let fig : MplFigure := ⟨15, 5, some "Cooling Rate (C/min)", MplContent.rate s⟩
  (fig, st ++ [fig])

/-- `plot_parcel_cooling`: the data pipeline `parcelTempsLong` runs
first; when it raises, the exception propagates before any figure is
created and the global pyplot state is untouched.  On success
`plt.subplots(figsize=(15, 5))` registers a new figure, `sns.lineplot`
draws the long-form table and `plt.ylabel` labels it. -/
def plot_parcel_cooling (s : Series) (T : ℚ) (st : PyplotState) :
    Except PyError MplFigure × PyplotState :=
  match parcelTempsLong s T with
  | .error e => (.error e, st)
  | .ok rows =>
      let fig : MplFigure := ⟨15, 5, some "Water Temp (C)", MplContent.parcel rows⟩
      (.ok fig, st ++ [fig])

/-- The list of figures a `plot_parcel_cooling` call registers: none on
failure, exactly the returned figure on success. -/
def figsOf (r : Except PyError MplFigure) : List MplFigure :=
  match r with
  | .error _ => []
  | .ok f => [f]

/-- `(F - 32) * (5 / 9)`: the Fahrenheit-to-Celsius conversion applied to
the `Temperature F` column in `plot_met`. -/
def tempFtoC (f : ℚ) : ℚ := (f - 32) * (5 / 9)

/-- `* 0.44704`: the mph-to-m/s conversion applied to the
`Surface Wind (mph)` column in `plot_met`. -/
def mphToMs (w : ℚ) : ℚ := w * 0.44704

/-- The meteorological input table of `plot_met`: the name of its index,
the index values (`date`s, embedded as rationals), and the named columns
in positional order. -/
structure MetDF where
  indexName : String
  dates : List ℚ
  cols : List (String × List ℚ)

/-- Rename every column labelled `a` to `b`
(`df.rename(columns={a: b})`). -/
def renameCols (w : Wide String) (a b : String) : Wide String :=
  w.map (fun p => (if p.1 = a then b else p.1, p.2))

/-- Drop every column whose label is in `ls`
(`df.drop(ls, axis=1)`). -/
def dropCols (w : Wide String) (ls : List String) : Wide String :=
  w.filter (fun p => decide (p.1 ∉ ls))

/-- One panel of the meteorological figure: the variable drawn in the
subplot row, its line color, its `(date, value)` points, and whether the
`y = 0` horizontal line was added (only for `Temperature C`). -/
structure MetPanel where
  varName : String
  color : String
  points : List (ℚ × ℚ)
  hasZeroLine : Bool
deriving DecidableEq

/-- The plotly figure built by `plot_met`: one subplot row per variable
of the melted table (paired with the four fixed colors; `zip` truncates
at the shorter list, as in the source). -/
structure MetFig where
  panels : List MetPanel
deriving DecidableEq

/-- The four fixed subplot colors of `plot_met`. -/
def metColors : List String := ["blue", "orange", "green", "red"]

/-- Build the subplot panels of `plot_met` from the id column (`date`
values) and the melted value columns. -/
def metPanels (dcol : List ℚ) (valueCols : Wide String) : List MetPanel :=
  (valueCols.zip metColors).map
    (fun p => ⟨p.1.1, p.2, dcol.zip p.1.2, decide (p.1.1 = "Temperature C")⟩)

/-- A label lookup that raises: continue with the column when the label
exists, raise `KeyError key` otherwise (`df[key]` in pandas, or the
`id_vars` check of `pd.melt`). -/
def bindCol (o : Option (List ℚ)) (key : String)
    (k : List ℚ → Except PyError MetFig) : Except PyError MetFig :=
  match o with
  | none => .error (.keyStr key)
  | some v => k v

/-- All columns carrying a label, in order (`df[l]` on a table with
possibly duplicated labels: a `Series` when one column matches, a
`DataFrame` when several do). -/
def getCols {α : Type} [DecidableEq α] : Wide α → α → List (List ℚ)
  | [], _ => []
  | (a, c) :: w, l => if a = l then c :: getCols w l else getCols w l

/-- The pandas pattern `df[tgt] = f(df[key])`: `df[key]` raises
`KeyError key` when no column is labelled `key`; when exactly one is, the
selection is a `Series` and the assignment proceeds (`k` receives the
column); when several are, the selection is a `DataFrame` and assigning
it to the single column `tgt` raises
`ValueError: Cannot set a DataFrame with multiple columns to the single
column tgt`. -/
def selectUnique (w : Wide String) (key tgt : String)
    (k : List ℚ → Except PyError MetFig) : Except PyError MetFig :=
  match getCols w key with
  | [] => .error (.keyStr key)
  | [v] => k v
  | _ => .error (.valueError tgt)

/-- The pipeline of `plot_met` after positional selection: rename column
0 to `Temperature F` (creating a duplicate label when a selected column
already carries that name), derive `Temperature C` from the
`Temperature F` selection (a `ValueError` when that selection is
ambiguous), look up `Surface Wind (mph)` and derive `windspeed ms`
likewise, drop the two source columns (both provably present at that
point, so `drop` cannot raise), then `reset_index` — which raises
`ValueError: cannot insert <index name>, already exists` when the index
name collides with a surviving column — and melt with `id_vars='date'`
(a `KeyError` when no `date` label is available), building one subplot
panel per remaining variable. -/
def plotMetSelected (indexName : String) (dates : List ℚ)
    (sel : Wide String) (n0 : String) : Except PyError MetFig :=
  let met1 := renameCols sel n0 "Temperature F"
  selectUnique met1 "Temperature F" "Temperature C" (fun tf =>
    let met2 := setCol met1 "Temperature C" (tf.map tempFtoC)
    selectUnique met2 "Surface Wind (mph)" "windspeed ms" (fun sw =>
      let met3 := setCol met2 "windspeed ms" (sw.map mphToMs)
      let met4 := dropCols met3 ["Temperature F", "Surface Wind (mph)"]
      if indexName ∈ labelsOf met4 then .error (.valueError indexName)
      else
        let reset : Wide String := (indexName, dates) :: met4
        bindCol (getCol reset "date") "date" (fun dcol =>
          .ok ⟨metPanels dcol (dropCols reset ["date"])⟩)))

/-- `plot_met`: select columns 0, 3, 6, 8 positionally
(`df[[columns[0], columns[3], columns[6], columns[8]]]`, positional
failure when fewer than 9 columns exist), then run the selected
pipeline. -/
def plot_met (df : MetDF) : Except PyError MetFig :=
  match df.cols[0]?, df.cols[3]?, df.cols[6]?, df.cols[8]? with
  | some p0, some p3, some p6, some p8 =>
      plotMetSelected df.indexName df.dates [p0, p3, p6, p8] p0.1
  | _, _, _, _ => .error (.outOfRange 8)

/-- Is a `plot_met` result a figure (rather than a propagated error)? -/
def metOk (r : Except PyError MetFig) : Bool :=
  match r with
  | .ok _ => true
  | .error _ => false

/-- The literal names of the columns at positions 3, 6 and 8 of the
meteorological table (position 0 is renamed to `Temperature F` before any
name lookup happens, so its original name never satisfies one). -/
def metTailNames (df : MetDF) : List String :=
  (List.filterMap (fun i => (df.cols[i]?).map Prod.fst) [3, 6, 8])

/-- A plotly line trace of the heat-flux figure: its name, line width and
line color as set by `px.line` plus the styling loop, its opacity, and
its plotted points. -/
structure Trace where
  name : String
  width : Option ℚ
  color : Option String
  opacity : Option ℚ
  points : List (ℕ × ℚ)
deriving DecidableEq

/-- The `color_discrete_map` of `plot_forecast_heat_fluxes`; names
outside the map receive a color from the default plotly palette
(embedded as `none`). -/
def fluxColorMap (n : String) : Option String :=
  if n = "downwelling SW" then some "blue"
  else if n = "downwelling LW" then some "orange"
  else if n = "upwelling LW" then some "green"
  else if n = "sensible heat" then some "red"
  else if n = "latent heat" then some "purple"
  else if n = "net flux" then some "black"
  else none

/-- First-occurrence deduplication: the order in which `px.line` creates
one trace per distinct value of the melted `variable` column. -/
def uniqNames : List String → List String → List String
  | _, [] => []
  | seen, n :: ns =>
      if n ∈ seen then uniqNames seen ns
      else n :: uniqNames (n :: seen) ns

/-- The trace `px.line` creates for one variable, before the styling
loop: named after the variable, colored by the discrete color map, with
default (unset) width and opacity, drawing that variable's rows. -/
def baseTrace (rows : List (ℕ × String × ℚ)) (n : String) : Trace :=
  ⟨n, none, fluxColorMap n,
    none, (rows.filter (fun r => r.2.1 == n)).map (fun r => (r.1, r.2.2))⟩

/-- The styling loop of `plot_forecast_heat_fluxes`: the `net flux` trace
gets line width 3 and black color; every other trace gets line width 2
and opacity 0.8. -/
def styleTrace (t : Trace) : Trace :=
  if t.name = "net flux" then ⟨t.name, some 3, some "black", t.opacity, t.points⟩
  else ⟨t.name, some 2, t.color, some 0.8, t.points⟩

/-- `plot_forecast_heat_fluxes`: melt the wide heat-flux table
(`pd.melt(energy_df.reset_index(), id_vars='index')`), create one line
trace per distinct variable in order of first appearance, then run the
styling loop over the traces.  The result embeds the `data` of the
returned plotly figure. -/
def plot_forecast_heat_fluxes (energy : Wide String) : List Trace :=
  let melted := meltWide energy
  ((uniqNames [] (melted.map (fun r => r.2.1))).map (baseTrace melted)).map styleTrace

/-- Check of the per-series styles the heat-flux claim asks for: some
trace is the `net flux` one with width 3 and black color, and every
trace other than `net flux` has width 2 and opacity 0.8. -/
def fluxStylesOk (ts : List Trace) : Bool :=
  ts.any (fun t => t.name == "net flux") &&
    ts.all (fun t =>
      if t.name == "net flux" then t.width == some 3 && t.color == some "black"
      else t.width == some 2 && t.opacity == some 0.8)

/-- Check that every column of a table is nonempty (the table has at
least one row per column). -/
def allColsNonempty {α : Type} (w : Wide α) : Bool :=
  w.all (fun p => !p.2.isEmpty)

/-- The three-step cooling-rate series of the spec's end-to-end scenario:
`[-0.01, -0.01, -0.01]` per minute, unnamed. -/
def crScenario : Series := ⟨none, [-1/100, -1/100, -1/100]⟩

/-- An unnamed 100-step cooling-rate series of constant `-0.01` per
minute, long enough for the 100-iteration loop to complete. -/
def crHundred : Series := ⟨none, List.replicate 100 (-1/100)⟩

/-- The same 100-step series carrying the name `rate`. -/
def crHundredNamed : Series := ⟨some "rate", List.replicate 100 (-1/100)⟩

/-- A 9-column meteorological table whose index is named `date` and whose
column at position 3 — not position 6 — is literally named
`Surface Wind (mph)`. -/
def metDfSwAt3 : MetDF :=
  ⟨"date", [0],
    [("A0", [32]), ("A1", [1]), ("A2", [1]), ("Surface Wind (mph)", [2]),
      ("A4", [1]), ("A5", [1]), ("W6", [3]), ("A7", [1]), ("A8", [4])]⟩

/-- A 9-column meteorological table with `date` index and no column named
`Surface Wind (mph)` anywhere. -/
def metDfNoSw : MetDF :=
  ⟨"date", [0],
    [("A0", [32]), ("A1", [1]), ("A2", [1]), ("A3", [1]),
      ("A4", [1]), ("A5", [1]), ("A6", [3]), ("A7", [1]), ("A8", [4])]⟩

/-- A five-column heat-flux table containing `net flux` among four other
named flux columns, one row deep. -/
def fluxTable : Wide String :=
  [("downwelling SW", [1]), ("downwelling LW", [2]), ("upwelling LW", [3]),
    ("sensible heat", [4]), ("net flux", [5])]

/-! ## Helper lemmas about the embedded pandas operations -/

theorem cumsumAux_length (acc : ℚ) (xs : List ℚ) :
    (cumsumAux acc xs).length = xs.length := by
  induction xs generalizing acc with
  | nil => rfl
  | cons x xs ih => simp [cumsumAux, ih]

theorem cumsum_length (xs : List ℚ) : (cumsum xs).length = xs.length :=
  cumsumAux_length 0 xs

theorem zeroFirst_length : ∀ (i : ℕ) (xs : List ℚ),
    (zeroFirst i xs).length = xs.length
  | _, [] => by cases ‹ℕ› <;> rfl
  | 0, _ :: _ => rfl
  | i + 1, _ :: xs => by simp [zeroFirst, zeroFirst_length i xs]

theorem zeroFirst_getElem_lt : ∀ (i : ℕ) (xs : List ℚ) (t : ℕ),
    t < i → t < xs.length → (zeroFirst i xs)[t]? = some 0
  | _, [], t => by intro _ h; exact absurd h (by simp)
  | 0, _ :: _, t => by intro h _; exact absurd h (by omega)
  | i + 1, x :: xs, 0 => by intro _ _; simp [zeroFirst]
  | i + 1, x :: xs, t + 1 => by
      intro h1 h2
      have := zeroFirst_getElem_lt i xs t (by omega) (by simpa using h2)
      simpa [zeroFirst] using this

theorem getCol_setCol_self {α : Type} [DecidableEq α] :
    ∀ (w : Wide α) (l : α) (col : List ℚ),
    getCol (setCol w l col) l = some col
  | [], _, _ => by simp [setCol, getCol]
  | (l', c') :: w, l, col => by
      by_cases h : l' = l
      · simp [setCol, getCol, h]
      · simp [setCol, getCol, h, getCol_setCol_self w l col]

theorem getCol_setCol_ne {α : Type} [DecidableEq α] :
    ∀ (w : Wide α) (l l' : α) (col : List ℚ), l ≠ l' →
    getCol (setCol w l' col) l = getCol w l
  | [], l, l', col => by intro h; simp [setCol, getCol, Ne.symm h]
  | (a, c') :: w, l, l', col => by
      intro h
      by_cases ha : a = l'
      · subst ha; simp [setCol, getCol, Ne.symm h]
      · by_cases hal : a = l
        · simp [setCol, getCol, ha, hal, h]
        · simp [setCol, getCol, ha, hal, getCol_setCol_ne w l l' col h]

theorem labelsOf_setCol {α : Type} [DecidableEq α] :
    ∀ (w : Wide α) (l : α) (col : List ℚ),
    labelsOf (setCol w l col) =
      if l ∈ labelsOf w then labelsOf w else labelsOf w ++ [l]
  | [], l, col => by simp [setCol, labelsOf]
  | (a, c') :: w, l, col => by
      by_cases ha : a = l
      · subst ha; simp [setCol, labelsOf]
      · have hla : l ≠ a := fun hh => ha hh.symm
        have h1 : setCol ((a, c') :: w) l col = (a, c') :: setCol w l col := by
          simp [setCol, ha]
        have h2 : labelsOf ((a, c') :: setCol w l col)
            = a :: labelsOf (setCol w l col) := rfl
        have h3 : labelsOf ((a, c') :: w) = a :: labelsOf w := rfl
        rw [h1, h2, h3, labelsOf_setCol w l col]
        by_cases hmem : l ∈ labelsOf w
        · rw [if_pos hmem, if_pos (List.mem_cons_of_mem a hmem)]
        · rw [if_neg hmem, if_neg (by simp [List.mem_cons, hla, hmem])]
          rfl

theorem mem_setCol {α : Type} [DecidableEq α] :
    ∀ (w : Wide α) (l : α) (col : List ℚ) (p : α × List ℚ),
    p ∈ setCol w l col → p = (l, col) ∨ p ∈ w
  | [], l, col, p => by simp [setCol]
  | (a, c') :: w, l, col, p => by
      by_cases ha : a = l
      · subst ha; simp [setCol]; tauto
      · simp only [setCol, if_neg ha, List.mem_cons]
        rintro (h | h)
        · right; left; exact h
        · rcases mem_setCol w l col p h with h' | h'
          · left; exact h'
          · right; right; exact h'

theorem getCol_mapVals {α : Type} [DecidableEq α] (f : ℚ → ℚ) :
    ∀ (w : Wide α) (l : α),
    getCol (mapVals f w) l = (getCol w l).map (List.map f)
  | [], _ => rfl
  | (a, c) :: w, l => by
      by_cases ha : a = l
      · simp [mapVals, getCol, ha]
      · have ih := getCol_mapVals f w l
        simp only [mapVals] at ih
        simp [mapVals, getCol, ha, ih]

theorem labelsOf_mapVals {α : Type} (f : ℚ → ℚ) (w : Wide α) :
    labelsOf (mapVals f w) = labelsOf w := by
  simp [labelsOf, mapVals, List.map_map]

theorem mem_mapVals {α : Type} (f : ℚ → ℚ) (w : Wide α) (p : α × List ℚ)
    (h : p ∈ mapVals f w) : ∃ q ∈ w, p = (q.1, q.2.map f) := by
  rcases List.mem_map.mp h with ⟨q, hq, rfl⟩
  exact ⟨q, hq, rfl⟩

theorem getCol_eq_none {α : Type} [DecidableEq α] :
    ∀ (w : Wide α) (l : α), l ∉ labelsOf w → getCol w l = none
  | [], _ => by intro _; rfl
  | (a, c) :: w, l => by
      intro h
      simp only [labelsOf, List.map_cons, List.mem_cons, not_or] at h
      simp [getCol, Ne.symm h.1, getCol_eq_none w l (by simpa [labelsOf] using h.2)]

theorem getCol_isSome {α : Type} [DecidableEq α] :
    ∀ (w : Wide α) (l : α), l ∈ labelsOf w → ∃ col, getCol w l = some col
  | [], l => by simp [labelsOf]
  | (a, c) :: w, l => by
      intro h
      by_cases ha : a = l
      · exact ⟨c, by simp [getCol, ha]⟩
      · have : l ∈ labelsOf w := by
          simpa [labelsOf, Ne.symm ha] using h
        rcases getCol_isSome w l this with ⟨col, hcol⟩
        exact ⟨col, by simp [getCol, ha, hcol]⟩

theorem length_rowsOf {α : Type} (l : α) :
    ∀ (t : ℕ) (col : List ℚ), (rowsOf l t col).length = col.length
  | _, [] => rfl
  | t, x :: xs => by simp [rowsOf, length_rowsOf l (t + 1) xs]

theorem length_meltWide {α : Type} :
    ∀ w : Wide α, (meltWide w).length = (w.map (fun p => p.2.length)).sum
  | [] => rfl
  | (l, c) :: w => by
      simp [meltWide, length_rowsOf, length_meltWide w]

theorem mem_rowsOf {α : Type} (l : α) :
    ∀ (t : ℕ) (col : List ℚ) (r : ℕ × α × ℚ),
    r ∈ rowsOf l t col → r.2.2 ∈ col
  | _, [], r => by simp [rowsOf]
  | t, x :: xs, r => by
      simp only [rowsOf, List.mem_cons]
      rintro (rfl | h)
      · simp
      · exact Or.inr (mem_rowsOf l (t + 1) xs r h)

theorem mem_meltWide {α : Type} :
    ∀ (w : Wide α) (r : ℕ × α × ℚ),
    r ∈ meltWide w → ∃ p ∈ w, r.2.2 ∈ p.2
  | [], r => by simp [meltWide]
  | (l, c) :: w, r => by
      simp only [meltWide, List.mem_append]
      rintro (h | h)
      · exact ⟨(l, c), by simp, mem_rowsOf l 0 c r h⟩
      · rcases mem_meltWide w r h with ⟨p, hp, hv⟩
        exact ⟨p, List.mem_cons_of_mem _ hp, hv⟩

theorem rowsOf_mem_meltWide {α : Type} :
    ∀ (w : Wide α) (l : α) (col : List ℚ) (r : ℕ × α × ℚ),
    (l, col) ∈ w → r ∈ rowsOf l 0 col → r ∈ meltWide w
  | [], _, _, _ => by simp
  | (a, c) :: w, l, col, r => by
      simp only [List.mem_cons, meltWide, List.mem_append]
      rintro (h | h) hr
      · left; rw [show a = l from congrArg Prod.fst h.symm,
          show c = col from congrArg Prod.snd h.symm]; exact hr
      · right; exact rowsOf_mem_meltWide w l col r h hr

theorem clamp_nonneg (v : ℚ) : 0 ≤ clamp v := by
  unfold clamp
  split
  · exact le_refl 0
  · exact le_of_not_lt (by assumption)

theorem sum_const_of_mem : ∀ (l : List ℕ) (n : ℕ),
    (∀ x ∈ l, x = n) → l.sum = l.length * n
  | [], n => by simp
  | x :: l, n => by
      intro h
      have hx := h x (by simp)
      have := sum_const_of_mem l n (fun y hy => h y (List.mem_cons_of_mem _ hy))
      simp [hx, this, Nat.succ_mul, Nat.add_comm]

theorem trajColumn_eq_ok (C : List ℚ) (i : ℕ) (h : i < C.length) :
    trajColumn C i = .ok (zeroFirst i (C.map (fun x => x - C[i]))) := by
  unfold trajColumn
  rw [List.getElem?_eq_getElem h]

theorem trajColumn_length (C : List ℚ) (i : ℕ) (col : List ℚ)
    (h : trajColumn C i = .ok col) : col.length = C.length := by
  unfold trajColumn at h
  cases hC : C[i]? with
  | none => simp [hC] at h
  | some ci =>
      simp [hC] at h
      rw [← h, zeroFirst_length, List.length_map]

theorem assignLoop_append (C : List ℚ) :
    ∀ (is : List ℕ) (js : List ℕ) (w : Wide ColLabel),
    assignLoop C w (is ++ js) =
      match assignLoop C w is with
      | .error e => .error e
      | .ok w₁ => assignLoop C w₁ js
  | [], js, w => by simp [assignLoop]
  | i :: is, js, w => by
      simp only [List.cons_append, assignLoop]
      cases trajColumn C i with
      | error e => rfl
      | ok col => exact assignLoop_append C is js _

theorem assignLoop_ok (C : List ℚ) :
    ∀ (is : List ℕ) (w : Wide ColLabel),
    (∀ j ∈ is, j < C.length) → ∃ w₁, assignLoop C w is = .ok w₁
  | [], w => fun _ => ⟨w, rfl⟩
  | i :: is, w => by
      intro h
      have hi : i < C.length := h i (by simp)
      simp only [assignLoop, trajColumn_eq_ok C i hi]
      exact assignLoop_ok C is _ (fun j hj => h j (List.mem_cons_of_mem _ hj))

theorem assignLoop_preserve (C : List ℚ) (l : ColLabel) :
    ∀ (is : List ℕ) (w w₁ : Wide ColLabel),
    (∀ j ∈ is, Sum.inl j ≠ l) → assignLoop C w is = .ok w₁ →
    getCol w₁ l = getCol w l
  | [], w, w₁ => by
      intro _ h
      simp only [assignLoop] at h
      injection h with h
      rw [h]
  | i :: is, w, w₁ => by
      intro hne h
      simp only [assignLoop] at h
      cases hc : trajColumn C i with
      | error e => rw [hc] at h; cases h
      | ok col =>
          rw [hc] at h
          have hrec := assignLoop_preserve C l is _ w₁
            (fun j hj => hne j (List.mem_cons_of_mem _ hj)) h
          rw [hrec, getCol_setCol_ne]
          exact fun heq => hne i (by simp) heq.symm

theorem assignLoop_getCol (C : List ℚ) :
    ∀ (is : List ℕ) (w w₁ : Wide ColLabel) (i : ℕ),
    assignLoop C w is = .ok w₁ → is.Nodup → i ∈ is →
    ∃ ci, C[i]? = some ci ∧
      getCol w₁ (Sum.inl i) = some (zeroFirst i (C.map (fun x => x - ci)))
  | [], w, w₁, i => by
      intro _ _ hmem
      simp at hmem
  | j :: is, w, w₁, i => by
      intro h hnd hmem
      simp only [assignLoop] at h
      cases hc : trajColumn C j with
      | error e => rw [hc] at h; cases h
      | ok col =>
          rw [hc] at h
          have hnd' := List.nodup_cons.mp hnd
          rcases List.mem_cons.mp hmem with rfl | hmem'
          · unfold trajColumn at hc
            cases hCi : C[i]? with
            | none => rw [hCi] at hc; cases hc
            | some ci =>
                rw [hCi] at hc
                injection hc with hc
                refine ⟨ci, rfl, ?_⟩
                have hpres := assignLoop_preserve C (Sum.inl i) is _ w₁
                  (fun j' hj' heq => hnd'.1 (by
                    have : j' = i := Sum.inl.inj heq
                    rwa [this] at hj')) h
                rw [hpres, getCol_setCol_self, hc]
          · exact assignLoop_getCol C is _ w₁ i h hnd'.2 hmem'

theorem assignLoop_cols_length (C : List ℚ) :
    ∀ (is : List ℕ) (w w₁ : Wide ColLabel),
    assignLoop C w is = .ok w₁ → (∀ p ∈ w, p.2.length = C.length) →
    ∀ p ∈ w₁, p.2.length = C.length
  | [], w, w₁ => by
      intro h hw
      simp only [assignLoop] at h
      injection h with h
      rw [← h]
      exact hw
  | i :: is, w, w₁ => by
      intro h hw
      simp only [assignLoop] at h
      cases hc : trajColumn C i with
      | error e => rw [hc] at h; cases h
      | ok col =>
          rw [hc] at h
          refine assignLoop_cols_length C is _ w₁ h ?_
          intro p hp
          rcases mem_setCol w (Sum.inl i) col p hp with rfl | hp'
          · exact trajColumn_length C i col hc
          · exact hw p hp'

theorem assignLoop_labels_named (C : List ℚ) (nm : String) (v : List ℚ) :
    ∀ (k : ℕ) (w₁ : Wide ColLabel),
    assignLoop C [(Sum.inr nm, v)] (List.range k) = .ok w₁ →
    labelsOf w₁ = Sum.inr nm :: (List.range k).map Sum.inl := by
  intro k
  induction k with
  | zero =>
      intro w₁ h
      simp only [List.range_zero, assignLoop] at h
      injection h with h
      rw [← h]
      rfl
  | succ k ih =>
      intro w₁ h
      rw [List.range_succ, assignLoop_append] at h
      cases h1 : assignLoop C [(Sum.inr nm, v)] (List.range k) with
      | error e => rw [h1] at h; cases h
      | ok wmid =>
          rw [h1] at h
          simp only [assignLoop] at h
          cases hc : trajColumn C k with
          | error e => rw [hc] at h; cases h
          | ok col =>
              rw [hc] at h
              injection h with h
              have hlab := ih wmid h1
              have hnotmem : Sum.inl k ∉ labelsOf wmid := by
                rw [hlab]
                simp only [List.mem_cons, List.mem_map]
                rintro (h' | ⟨a, ha, h'⟩)
                · cases h'
                · have : a = k := Sum.inl.inj h'
                  rw [this] at ha
                  exact absurd (List.mem_range.mp ha) (lt_irrefl k)
              rw [← h, labelsOf_setCol, if_neg hnotmem, hlab,
                List.range_succ, List.map_append]
              rfl

theorem assignLoop_labels_unnamed (C : List ℚ) (v : List ℚ) :
    ∀ (k : ℕ) (w₁ : Wide ColLabel), 1 ≤ k →
    assignLoop C [(Sum.inl 0, v)] (List.range k) = .ok w₁ →
    labelsOf w₁ = (List.range k).map Sum.inl := by
  intro k
  induction k with
  | zero => intro w₁ h; omega
  | succ k ih =>
      intro w₁ _ h
      rcases Nat.eq_zero_or_pos k with rfl | hk
      · rw [List.range_succ, List.range_zero, List.nil_append] at h
        simp only [assignLoop] at h
        cases hc : trajColumn C 0 with
        | error e => rw [hc] at h; cases h
        | ok col =>
            rw [hc] at h
            simp only [assignLoop] at h
            injection h with h
            rw [← h]
            rfl
      · rw [List.range_succ, assignLoop_append] at h
        cases h1 : assignLoop C [(Sum.inl 0, v)] (List.range k) with
        | error e => rw [h1] at h; cases h
        | ok wmid =>
            rw [h1] at h
            simp only [assignLoop] at h
            cases hc : trajColumn C k with
            | error e => rw [hc] at h; cases h
            | ok col =>
                rw [hc] at h
                injection h with h
                have hlab := ih wmid hk h1
                have hnotmem : Sum.inl k ∉ labelsOf wmid := by
                  rw [hlab]
                  simp only [List.mem_map]
                  rintro ⟨a, ha, h'⟩
                  have : a = k := Sum.inl.inj h'
                  rw [this] at ha
                  exact absurd (List.mem_range.mp ha) (lt_irrefl k)
                rw [← h, labelsOf_setCol, if_neg hnotmem, hlab,
                  List.range_succ, List.map_append]
                rfl

/-! ## Lemmas about the parcel-cooling pipeline -/

theorem parcel_C_length (s : Series) :
    (cumsum (coolingRateHr s).values).length = s.values.length := by
  simp [cumsum_length, coolingRateHr]

theorem parcelTemps_ok (s : Series) (T : ℚ) (h100 : 100 ≤ s.values.length) :
    ∃ w, assignLoop (cumsum (coolingRateHr s).values)
        [(initLabel (coolingRateHr s).name, (coolingRateHr s).values)]
        (List.range 100) = .ok w ∧
      parcelTemps s T = .ok (mapVals clamp (mapVals (fun v => v + T) w)) := by
  obtain ⟨w, hw⟩ := assignLoop_ok (cumsum (coolingRateHr s).values) (List.range 100)
    [(initLabel (coolingRateHr s).name, (coolingRateHr s).values)]
    (fun j hj => by
      have h1 := List.mem_range.mp hj
      have h2 := parcel_C_length s
      omega)
  refine ⟨w, hw, ?_⟩
  unfold parcelTemps
  rw [hw]

theorem parcelPreRelease (s : Series) (T : ℚ) (i t : ℕ)
    (h100 : 100 ≤ s.values.length) (hi : i < 100) (ht : t < i) :
    wideValueAt (parcelTemps s T) (Sum.inl i) t = some (clamp T) := by
  obtain ⟨w, hw, hpt⟩ := parcelTemps_ok s T h100
  obtain ⟨ci, hci, hcol⟩ := assignLoop_getCol _ (List.range 100) _ w i hw
    (List.nodup_range 100) (List.mem_range.mpr hi)
  rw [hpt]
  simp only [wideValueAt]
  rw [getCol_mapVals, getCol_mapVals, hcol]
  simp only [Option.map_some', Option.some_bind]
  rw [List.getElem?_map, List.getElem?_map, zeroFirst_getElem_lt i _ t ht (by
    rw [List.length_map, parcel_C_length s]
    omega)]
  simp

theorem parcelTemps_cols_length (s : Series) (T : ℚ) (w : Wide ColLabel)
    (h : parcelTemps s T = .ok w) :
    ∀ p ∈ w, p.2.length = s.values.length := by
  unfold parcelTemps at h
  cases hal : assignLoop (cumsum (coolingRateHr s).values)
      [(initLabel (coolingRateHr s).name, (coolingRateHr s).values)]
      (List.range 100) with
  | error e => rw [hal] at h; cases h
  | ok w0 =>
      rw [hal] at h
      injection h with h
      have hlen : ∀ p ∈ w0, p.2.length = (cumsum (coolingRateHr s).values).length := by
        refine assignLoop_cols_length _ (List.range 100) _ w0 hal ?_
        intro p hp
        rw [List.mem_singleton] at hp
        rw [hp, parcel_C_length s]
        simp [coolingRateHr]
      intro p hp
      rw [← h] at hp
      obtain ⟨q, hq, rfl⟩ := mem_mapVals clamp _ p hp
      obtain ⟨r, hr, rfl⟩ := mem_mapVals (fun v => v + T) w0 q hq
      simp only [List.length_map]
      rw [hlen r hr, parcel_C_length s]

theorem parcelTemps_vals_nonneg (s : Series) (T : ℚ) (w : Wide ColLabel)
    (h : parcelTemps s T = .ok w) :
    ∀ p ∈ w, ∀ v ∈ p.2, 0 ≤ v := by
  unfold parcelTemps at h
  cases hal : assignLoop (cumsum (coolingRateHr s).values)
      [(initLabel (coolingRateHr s).name, (coolingRateHr s).values)]
      (List.range 100) with
  | error e => rw [hal] at h; cases h
  | ok w0 =>
      rw [hal] at h
      injection h with h
      intro p hp v hv
      rw [← h] at hp
      obtain ⟨q, hq, rfl⟩ := mem_mapVals clamp _ p hp
      simp only at hv
      obtain ⟨x, hx, rfl⟩ := List.mem_map.mp hv
      exact clamp_nonneg x

theorem parcelShape_unnamed (s : Series) (T : ℚ) (hnm : s.name = none)
    (h100 : 100 ≤ s.values.length) :
    wideLabels (parcelTemps s T) = some ((List.range 100).map Sum.inl) ∧
    longLength (parcelTempsLong s T) = some (100 * s.values.length) := by
  obtain ⟨w, hw, hpt⟩ := parcelTemps_ok s T h100
  have hinit : initLabel (coolingRateHr s).name = Sum.inl 0 := by
    simp [coolingRateHr, hnm, initLabel]
  rw [hinit] at hw
  have hlab := assignLoop_labels_unnamed _ _ 100 w (by omega) hw
  have hlabels : labelsOf (mapVals clamp (mapVals (fun v => v + T) w))
      = (List.range 100).map Sum.inl := by
    rw [labelsOf_mapVals, labelsOf_mapVals, hlab]
  constructor
  · rw [hpt]
    simp only [wideLabels]
    rw [hlabels]
  · have hlen := parcelTemps_cols_length s T _ hpt
    unfold parcelTempsLong
    rw [hpt]
    simp only [longLength]
    rw [length_meltWide]
    have hsum := sum_const_of_mem
      ((mapVals clamp (mapVals (fun v => v + T) w)).map (fun p => p.2.length))
      s.values.length
      (fun x hx => by
        obtain ⟨p, hp, rfl⟩ := List.mem_map.mp hx
        exact hlen p hp)
    rw [hsum]
    have hcount : (mapVals clamp (mapVals (fun v => v + T) w)).length = 100 := by
      have hlc := congrArg List.length hlabels
      simpa [labelsOf] using hlc
    rw [List.length_map, hcount]

theorem parcelShape_named (nm : String) (vals : List ℚ) (T : ℚ)
    (h100 : 100 ≤ vals.length) :
    wideLabels (parcelTemps ⟨some nm, vals⟩ T)
      = some (Sum.inr nm :: (List.range 100).map Sum.inl) := by
  obtain ⟨w, hw, hpt⟩ := parcelTemps_ok ⟨some nm, vals⟩ T (by simpa using h100)
  have hinit : initLabel (coolingRateHr ⟨some nm, vals⟩).name = Sum.inr nm := by
    simp [coolingRateHr, initLabel]
  rw [hinit] at hw
  have hlab := assignLoop_labels_named _ nm _ 100 w hw
  rw [hpt]
  simp only [wideLabels]
  rw [labelsOf_mapVals, labelsOf_mapVals, hlab]

/-! ## Scenario evaluation lemmas -/

theorem scenarioHr : (coolingRateHr crScenario).values = [-(3/5), -(3/5), -(3/5)] := by
  norm_num [coolingRateHr, crScenario]

theorem scenarioCumsum :
    cumsum (coolingRateHr crScenario).values = [-(3/5), -(6/5), -(9/5)] := by
  rw [scenarioHr]
  norm_num [cumsum, cumsumAux]

theorem scenarioFails : parcelTempsLong crScenario 10 = .error (.keyNat 3) := rfl

theorem scenarioTraj0 :
    (trajColumn (cumsum (coolingRateHr crScenario).values) 0).map
      (fun col => (col.map (fun v => v + 10)).map clamp) = .ok [10, 47/5, 44/5] := by
  rw [scenarioCumsum]
  norm_num [trajColumn, zeroFirst, clamp, Except.map]

theorem scenarioTraj1 :
    (trajColumn (cumsum (coolingRateHr crScenario).values) 1).map
      (fun col => (col.map (fun v => v + 10)).map clamp) = .ok [10, 10, 47/5] := by
  rw [scenarioCumsum]
  norm_num [trajColumn, zeroFirst, clamp, Except.map]

/-! ## Claim theorems: parcel cooling evolution -/

/-- C1 (amended).  For the cooling-rate series `[-0.01, -0.01, -0.01]`
(per minute) with initial temperature `10` °C: the per-hour series is
`[-0.6, -0.6, -0.6]` and its cumulative sum is `[-0.6, -1.2, -1.8]`, as
the claim states; but the call itself fails with `KeyError 3` (the
100-iteration loop reads past the 3-step series), and the per-release
computation (trajectory derivation, pre-release zeroing, then the shift
by the initial temperature and the clamp) gives `[10, 9.4, 8.8]` for
release index 0 and `[10, 10, 9.4]` for release index 1 — not
`[9.4, 8.8, 8.2]` and `[0, 9.4, 8.8]` — because the pre-release zeroing
is applied before the initial temperature is added, so each parcel
holds the initial temperature at and before its release step. -/
theorem C1_scenario_amended :
    (coolingRateHr crScenario).values = [-(3/5), -(3/5), -(3/5)] ∧
    cumsum (coolingRateHr crScenario).values = [-(3/5), -(6/5), -(9/5)] ∧
    parcelTempsLong crScenario 10 = .error (.keyNat 3) ∧
    (trajColumn (cumsum (coolingRateHr crScenario).values) 0).map
      (fun col => (col.map (fun v => v + 10)).map clamp) = .ok [10, 47/5, 44/5] ∧
    (trajColumn (cumsum (coolingRateHr crScenario).values) 1).map
      (fun col => (col.map (fun v => v + 10)).map clamp) = .ok [10, 10, 47/5] :=
  ⟨scenarioHr, scenarioCumsum, scenarioFails, scenarioTraj0, scenarioTraj1⟩

/-- C1 counterexample.  On the scenario input the call returns an error
(so no trajectory table is produced at all), and the per-release
computation for release index 0 does not produce the claimed
`[9.4, 8.8, 8.2]`. -/
theorem C1_scenario_claim_false :
    parcelTempsLong crScenario 10 = .error (.keyNat 3) ∧
    (trajColumn (cumsum (coolingRateHr crScenario).values) 0).map
      (fun col => (col.map (fun v => v + 10)).map clamp) ≠ .ok [47/5, 44/5, 41/5] := by
  refine ⟨scenarioFails, ?_⟩
  rw [scenarioTraj0]
  intro h
  injection h with h
  rw [List.cons.injEq] at h
  norm_num at h

/-- C2 (amended).  For every cooling-rate series long enough for the
100-iteration loop, every initial temperature `T`, every release index
`i < 100` and every time step `t < i`, trajectory `i`'s value in the wide
output table is `clamp T` — the initial water temperature floored at 0 —
not 0: the pre-release zeroing `c[0:i] = 0` runs before
`temps = temps + T_water_C`. -/
theorem C2_pre_release_amended (s : Series) (T : ℚ) (i t : ℕ)
    (h100 : 100 ≤ s.values.length) (hi : i < 100) (ht : t < i) :
    wideValueAt (parcelTemps s T) (Sum.inl i) t = some (clamp T) :=
  parcelPreRelease s T i t h100 hi ht

/-- C2 witness: the amended statement instantiated at the 100-step
constant series, `T = 10`, release index 1, time step 0. -/
theorem C2_pre_release_amended_witness :
    wideValueAt (parcelTemps crHundred 10) (Sum.inl 1) 0 = some (clamp 10) :=
  C2_pre_release_amended crHundred 10 1 0 (by simp [crHundred]) (by omega) (by omega)

/-- C2 counterexample: at the 100-step constant series with initial
temperature 10, trajectory 1's value at time step 0 is 10, not 0. -/
theorem C2_pre_release_not_zero :
    wideValueAt (parcelTemps crHundred 10) (Sum.inl 1) 0 ≠ some 0 := by
  rw [parcelPreRelease crHundred 10 1 0 (by simp [crHundred]) (by omega) (by omega)]
  intro h
  injection h with h
  norm_num [clamp] at h

/-- C3.  The loop range is the hardcoded `range(100)`, not
`min(100, len(series))`: on the 3-step series the call reads past the end
and fails with `KeyError 3` (during the fourth iteration), both in the
data pipeline and in the full call, which registers no figure. -/
theorem C3_short_series_keyerror :
    parcelTempsLong crScenario 10 = .error (.keyNat 3) ∧
    plot_parcel_cooling crScenario 10 [] = (.error (.keyNat 3), []) :=
  ⟨scenarioFails, rfl⟩

/-- C4.  For every cooling-rate series and every initial temperature,
whenever the parcel-cooling pipeline returns a table, every value in it
is nonnegative (the `temps[temps < 0] = 0` clamp ran last) and every
column is fully populated with one value per time step. -/
theorem C4_output_nonneg_and_complete (s : Series) (T : ℚ) :
    parcelOutputCheck s T = true := by
  unfold parcelOutputCheck
  cases hpt : parcelTemps s T with
  | error e => rfl
  | ok w =>
      rw [Bool.and_eq_true]
      constructor
      · unfold fullColumns
        rw [List.all_eq_true]
        intro p hp
        rw [beq_iff_eq]
        exact parcelTemps_cols_length s T w hpt p hp
      · unfold nonnegLong
        rw [List.all_eq_true]
        intro r hr
        rw [decide_eq_true_eq]
        obtain ⟨p, hp, hv⟩ := mem_meltWide w r hr
        exact parcelTemps_vals_nonneg s T w hpt p hp r.2.2 hv

/-- C5 (amended).  For an unnamed cooling-rate series long enough for the
loop, the wide table has exactly the trajectory columns labelled 0..99
(the initial column of `pd.DataFrame(cooling_rate_hr)` is labelled 0 and
overwritten by trajectory 0), and the melted long-form table of
(time index, trajectory id, value) triples has one row per cell,
`100 * n` in total.  When the series carries a name, its column survives
as an extra column next to the 100 trajectory columns. -/
theorem C5_wide_columns_amended (s : Series) (T : ℚ) (hnm : s.name = none)
    (h100 : 100 ≤ s.values.length) :
    wideLabels (parcelTemps s T) = some ((List.range 100).map Sum.inl) ∧
    longLength (parcelTempsLong s T) = some (100 * s.values.length) :=
  parcelShape_unnamed s T hnm h100

/-- C5 witness: the amended statement at the unnamed 100-step series. -/
theorem C5_wide_columns_amended_witness :
    wideLabels (parcelTemps crHundred 10) = some ((List.range 100).map Sum.inl) ∧
    longLength (parcelTempsLong crHundred 10) = some 10000 := by
  have h := C5_wide_columns_amended crHundred 10 rfl (by simp [crHundred])
  simpa [crHundred] using h

/-- C5 counterexample: for the named 100-step series the wide table is
not exactly the trajectory columns 0..99 (or fewer) — the cooling-rate
column survives under its own name. -/
theorem C5_named_series_extra_column :
    ¬ ∃ k, k ≤ 100 ∧
      wideLabels (parcelTemps crHundredNamed 10)
        = some ((List.range k).map Sum.inl) := by
  have hsh := parcelShape_named "rate" (List.replicate 100 (-1/100)) 10 (by simp)
  rintro ⟨k, hk, heq⟩
  rw [show parcelTemps crHundredNamed 10
      = parcelTemps ⟨some "rate", List.replicate 100 (-1/100)⟩ 10 from rfl] at heq
  rw [hsh] at heq
  injection heq with heq
  cases k with
  | zero => simp at heq
  | succ k =>
      rw [show List.range (k + 1) = 0 :: (List.range k).map Nat.succ from
        List.range_succ_eq_map k] at heq
      simp at heq

/-- C6.  Called on an empty cooling-rate series, the evolution fails with
the `KeyError` raised by the first label lookup on the empty
cumulative-sum series; the error propagates as-is through the full call,
which returns no figure and leaves the global figure registry
untouched. -/
theorem C6_empty_series_fails (nm : Option String) (T : ℚ) (st : PyplotState) :
    parcelTempsLong ⟨nm, []⟩ T = .error (.keyNat 0) ∧
    plot_parcel_cooling ⟨nm, []⟩ T st = (.error (.keyNat 0), st) :=
  ⟨rfl, rfl⟩

/-! ## Claim theorems: frame and global-state effects -/

/-- C9 (amended).  Every call is a pure function of its inputs and
returns a fresh chart value, but the matplotlib-based functions do touch
process-global pyplot state: `plot_cooling_rate` always appends its new
figure to the global registry, and `plot_parcel_cooling` appends its new
figure exactly when the pipeline succeeds (and leaves the registry
unchanged when it raises).  The plotly-based functions (`plot_met`,
`plot_forecast_heat_fluxes`) are embedded without any state parameter:
they touch no global state. -/
theorem C9_matplotlib_registers_figures (scr s : Series) (T : ℚ)
    (st st2 : PyplotState) :
    (plot_cooling_rate scr st).2 = st ++ [(plot_cooling_rate scr st).1] ∧
    (plot_parcel_cooling s T st2).2
      = st2 ++ figsOf (plot_parcel_cooling s T st2).1 := by
  constructor
  · rfl
  · unfold plot_parcel_cooling figsOf
    cases parcelTempsLong s T with
    | error e => simp
    | ok rows => simp

/-- C9 counterexample: a successful `plot_parcel_cooling` call started
with an empty global figure registry leaves a non-empty registry behind —
global pyplot state is mutated. -/
theorem C9_figure_registry_grows :
    (plot_parcel_cooling crHundred 10 []).2 ≠ [] := by
  obtain ⟨w, hw, hpt⟩ := parcelTemps_ok crHundred 10 (by simp [crHundred])
  have hlong : parcelTempsLong crHundred 10
      = .ok (meltWide (mapVals clamp (mapVals (fun v => v + 10) w))) := by
    unfold parcelTempsLong
    rw [hpt]
  unfold plot_parcel_cooling
  rw [hlong]
  simp

/-! ## Claim theorems: unit conversions and the heat-flux chart -/

/-- C7.  The unit conversions of `plot_met` are exact: 32 °F converts to
exactly 0 °C and 212 °F to exactly 100 °C via `(F - 32) * (5 / 9)`, and
1 mph converts to exactly 0.44704 m/s. -/
theorem C7_unit_conversions_exact :
    tempFtoC 32 = 0 ∧ tempFtoC 212 = 100 ∧ mphToMs 1 = 44704 / 100000 := by
  norm_num [tempFtoC, mphToMs]

theorem mem_uniqNames : ∀ (l seen : List String) (n : String),
    n ∈ l → n ∈ seen ∨ n ∈ uniqNames seen l
  | [], _, n => by simp
  | m :: ms, seen, n => by
      intro hmem
      unfold uniqNames
      rcases List.mem_cons.mp hmem with rfl | hmem'
      · by_cases hm : n ∈ seen
        · left; exact hm
        · right; rw [if_neg hm]; exact List.mem_cons_self n _
      · by_cases hm : m ∈ seen
        · rw [if_pos hm]
          exact mem_uniqNames ms seen n hmem'
        · rw [if_neg hm]
          rcases mem_uniqNames ms (m :: seen) n hmem' with h | h
          · rcases List.mem_cons.mp h with rfl | h'
            · right; exact List.mem_cons_self n _
            · left; exact h'
          · right; exact List.mem_cons_of_mem m h

/-- C8.  For every heat-flux table that has a `net flux` column and at
least one row per column, the returned chart renders the `net flux`
series with line width 3 and black color, and every other series with
line width 2 and opacity 0.8. -/
theorem C8_net_flux_bold (e : Wide String)
    (hmem : "net flux" ∈ labelsOf e) (hne : allColsNonempty e = true) :
    fluxStylesOk (plot_forecast_heat_fluxes e) = true := by
  unfold fluxStylesOk plot_forecast_heat_fluxes
  rw [Bool.and_eq_true]
  constructor
  · rw [List.any_eq_true]
    obtain ⟨p, hp, hfst⟩ := List.mem_map.mp hmem
    have hnonempty : ¬ p.2.isEmpty = true := by
      have := List.all_eq_true.mp hne p hp
      simpa using this
    have hnames : "net flux" ∈ (meltWide e).map (fun r => r.2.1) := by
      cases hcol : p.2 with
      | nil => rw [hcol] at hnonempty; simp at hnonempty
      | cons x xs =>
          refine List.mem_map.mpr ⟨(0, p.1, x), ?_, hfst⟩
          refine rowsOf_mem_meltWide e p.1 p.2 (0, p.1, x) ?_ ?_
          · rw [show (p.1, p.2) = p from rfl]
            exact hp
          · rw [hcol]
            exact List.mem_cons_self _ _
    have huniq : "net flux" ∈ uniqNames [] ((meltWide e).map (fun r => r.2.1)) := by
      rcases mem_uniqNames _ [] _ hnames with h | h
      · simp at h
      · exact h
    refine ⟨styleTrace (baseTrace (meltWide e) "net flux"), ?_, ?_⟩
    · exact List.mem_map.mpr
        ⟨baseTrace (meltWide e) "net flux",
          List.mem_map.mpr ⟨"net flux", huniq, rfl⟩, rfl⟩
    · simp [styleTrace, baseTrace]
  · rw [List.all_eq_true]
    intro t ht
    obtain ⟨b, hb, rfl⟩ := List.mem_map.mp ht
    by_cases hn : b.name = "net flux"
    · simp [styleTrace, hn]
    · simp [styleTrace, hn]

/-- C8 witness: the styles check holds on a concrete five-column
heat-flux table containing `net flux`. -/
theorem C8_net_flux_bold_witness :
    fluxStylesOk (plot_forecast_heat_fluxes fluxTable) = true :=
  C8_net_flux_bold fluxTable (by simp [labelsOf, fluxTable]) rfl

/-! ## Lemmas and claims for the meteorological chart -/

theorem mem_labelsOf_setCol {α : Type} [DecidableEq α]
    (w : Wide α) (l : α) (col : List ℚ) (t : α) :
    t ∈ labelsOf (setCol w l col) ↔ t = l ∨ t ∈ labelsOf w := by
  rw [labelsOf_setCol]
  by_cases h : l ∈ labelsOf w
  · rw [if_pos h]
    constructor
    · exact Or.inr
    · rintro (rfl | ht)
      · exact h
      · exact ht
  · rw [if_neg h, List.mem_append, List.mem_singleton]
    tauto

theorem mem_labelsOf_dropCols (w : Wide String) (ls : List String) (t : String) :
    t ∈ labelsOf (dropCols w ls) ↔ t ∈ labelsOf w ∧ t ∉ ls := by
  unfold labelsOf dropCols
  constructor
  · intro h
    obtain ⟨p, hp, rfl⟩ := List.mem_map.mp h
    have hf := List.mem_filter.mp hp
    refine ⟨List.mem_map.mpr ⟨p, hf.1, rfl⟩, ?_⟩
    simpa using hf.2
  · rintro ⟨h1, h2⟩
    obtain ⟨p, hp, rfl⟩ := List.mem_map.mp h1
    exact List.mem_map.mpr ⟨p, List.mem_filter.mpr ⟨hp, by simpa using h2⟩, rfl⟩

theorem metColName_ne (df : MetDF) (hnd : (labelsOf df.cols).Nodup)
    {i j : ℕ} (hi : i < df.cols.length) (hj : j < df.cols.length) (hij : i ≠ j) :
    (df.cols[i]).1 ≠ (df.cols[j]).1 := by
  intro hEq
  have hi' : i < (labelsOf df.cols).length := by simpa [labelsOf]
  have hj' : j < (labelsOf df.cols).length := by simpa [labelsOf]
  have h1 : (labelsOf df.cols)[i] = (labelsOf df.cols)[j] := by
    simpa [labelsOf] using hEq
  exact hij (hnd.getElem_inj_iff.mp h1)

theorem mem_getCols {α : Type} [DecidableEq α] :
    ∀ (w : Wide α) (l : α) (p : α × List ℚ), p ∈ w → p.1 = l →
    p.2 ∈ getCols w l
  | [], _, p => by simp
  | (a, c) :: w, l, p => by
      intro hp hl
      rcases List.mem_cons.mp hp with rfl | hp'
      · have hl' : a = l := hl
        simp [getCols, hl']
      · by_cases ha : a = l
        · simp only [getCols, if_pos ha]
          exact List.mem_cons_of_mem _ (mem_getCols w l p hp' hl)
        · simp only [getCols, if_neg ha]
          exact mem_getCols w l p hp' hl

theorem getCols_nil_of_not_mem {α : Type} [DecidableEq α] :
    ∀ (w : Wide α) (l : α), l ∉ labelsOf w → getCols w l = []
  | [], _ => fun _ => rfl
  | (a, c) :: w, l => by
      intro h
      have hexp : labelsOf ((a, c) :: w) = a :: labelsOf w := rfl
      rw [hexp] at h
      have hal : ¬ (a = l) := by
        intro hh
        cases hh
        exact h (List.mem_cons_self _ _)
      have hrest : l ∉ labelsOf w := fun hh => h (List.mem_cons_of_mem _ hh)
      simp only [getCols, if_neg hal]
      exact getCols_nil_of_not_mem w l hrest

theorem getCols_singleton {α : Type} [DecidableEq α] :
    ∀ (w : Wide α) (l : α), (labelsOf w).Nodup → l ∈ labelsOf w →
    ∃ v, getCols w l = [v]
  | [], l => by
      intro _ h
      simp [labelsOf] at h
  | (a, c) :: w, l => by
      intro hnd hmem
      have hexp : labelsOf ((a, c) :: w) = a :: labelsOf w := rfl
      rw [hexp] at hnd hmem
      have hnd' := List.nodup_cons.mp hnd
      by_cases ha : a = l
      · subst ha
        refine ⟨c, ?_⟩
        have hnil := getCols_nil_of_not_mem w a hnd'.1
        simp [getCols, hnil]
      · have hmem' : l ∈ labelsOf w := by
          rcases List.mem_cons.mp hmem with h | h
          · exact absurd h.symm ha
          · exact h
        obtain ⟨v, hv⟩ := getCols_singleton w l hnd'.2 hmem'
        refine ⟨v, ?_⟩
        simp only [getCols, if_neg ha]
        exact hv

theorem selectUnique_none (w : Wide String) (key tgt : String)
    (k : List ℚ → Except PyError MetFig) (h : getCols w key = []) :
    selectUnique w key tgt k = .error (.keyStr key) := by
  unfold selectUnique
  rw [h]

theorem selectUnique_single (w : Wide String) (key tgt : String)
    (k : List ℚ → Except PyError MetFig) (v : List ℚ)
    (h : getCols w key = [v]) :
    selectUnique w key tgt k = k v := by
  unfold selectUnique
  rw [h]

theorem selectUnique_multi (w : Wide String) (key tgt : String)
    (k : List ℚ → Except PyError MetFig)
    (h : 2 ≤ (getCols w key).length) :
    selectUnique w key tgt k = .error (.valueError tgt) := by
  unfold selectUnique
  rcases hg : getCols w key with _ | ⟨a, rest⟩
  · rw [hg] at h
    simp at h
  · rcases rest with _ | ⟨b, rest2⟩
    · rw [hg] at h
      simp at h
    · rfl

theorem labelsOf_setCol_nodup {α : Type} [DecidableEq α] (w : Wide α) (l : α)
    (col : List ℚ) (h : (labelsOf w).Nodup) :
    (labelsOf (setCol w l col)).Nodup := by
  rw [labelsOf_setCol]
  by_cases hmem : l ∈ labelsOf w
  · rw [if_pos hmem]
    exact h
  · rw [if_neg hmem]
    refine h.append (List.nodup_singleton l) ?_
    intro a ha hb
    rw [List.mem_singleton] at hb
    exact hmem (hb ▸ ha)

/-- C10 (amended).  Beyond the positional contract, `plot_met` indeed
requires two literal names — but they attach to labels, not to position 6
and the index specifically: with at least 9 distinctly named columns, the
call succeeds only if `Surface Wind (mph)` appears among the selected
columns at positions 3, 6, 8 (position 0 is renamed to `Temperature F`
before any lookup) and a `date` label is available to the reshape (the
index named `date`, or a selected column so named).  Every violating
input fails — with a `KeyError` on `Surface Wind (mph)` or on `date`,
unless one of two pandas pathologies strikes first: a selected column at
positions 3/6/8 itself named `Temperature F` makes the renamed selection
ambiguous and the `Temperature C` assignment raises `ValueError`, and an
index name colliding with a surviving column makes `reset_index` raise
`ValueError`. -/
theorem C10_met_name_requirements (df : MetDF) (h9 : 9 ≤ df.cols.length)
    (hnd : (labelsOf df.cols).Nodup)
    (hviol : ¬ ("Surface Wind (mph)" ∈ metTailNames df ∧
      ("date" = df.indexName ∨ "date" ∈ metTailNames df))) :
    plot_met df = .error (.keyStr "Surface Wind (mph)") ∨
    plot_met df = .error (.keyStr "date") ∨
    plot_met df = .error (.valueError "Temperature C") ∨
    plot_met df = .error (.valueError df.indexName) := by
  have h0 : 0 < df.cols.length := by omega
  have h3 : 3 < df.cols.length := by omega
  have h6 : 6 < df.cols.length := by omega
  have h8 : 8 < df.cols.length := by omega
  have e0 : df.cols[0]? = some df.cols[0] := List.getElem?_eq_getElem h0
  have e3 : df.cols[3]? = some df.cols[3] := List.getElem?_eq_getElem h3
  have e6 : df.cols[6]? = some df.cols[6] := List.getElem?_eq_getElem h6
  have e8 : df.cols[8]? = some df.cols[8] := List.getElem?_eq_getElem h8
  have hplot : plot_met df = plotMetSelected df.indexName df.dates
      [df.cols[0], df.cols[3], df.cols[6], df.cols[8]] (df.cols[0]).1 := by
    unfold plot_met
    rw [e0, e3, e6, e8]
  have htail : metTailNames df
      = [(df.cols[3]).1, (df.cols[6]).1, (df.cols[8]).1] := by
    simp [metTailNames, e3, e6, e8]
  have hne3 := metColName_ne df hnd h3 h0 (by omega)
  have hne6 := metColName_ne df hnd h6 h0 (by omega)
  have hne8 := metColName_ne df hnd h8 h0 (by omega)
  have hne36 := metColName_ne df hnd h3 h6 (by omega)
  have hne38 := metColName_ne df hnd h3 h8 (by omega)
  have hne68 := metColName_ne df hnd h6 h8 (by omega)
  have hmet1 : renameCols [df.cols[0], df.cols[3], df.cols[6], df.cols[8]]
      (df.cols[0]).1 "Temperature F"
      = ("Temperature F", (df.cols[0]).2)
          :: [df.cols[3], df.cols[6], df.cols[8]] := by
    simp [renameCols, hne3, hne6, hne8]
  have hlab1 : labelsOf (("Temperature F", (df.cols[0]).2)
        :: [df.cols[3], df.cols[6], df.cols[8]])
      = "Temperature F" :: [(df.cols[3]).1, (df.cols[6]).1, (df.cols[8]).1] := rfl
  rw [htail] at hviol
  rw [hplot]
  unfold plotMetSelected
  simp only [hmet1]
  by_cases hTF : "Temperature F"
      ∈ [(df.cols[3]).1, (df.cols[6]).1, (df.cols[8]).1]
  · have hmulti : 2 ≤ (getCols (("Temperature F", (df.cols[0]).2)
        :: [df.cols[3], df.cols[6], df.cols[8]]) "Temperature F").length := by
      have hhd : getCols (("Temperature F", (df.cols[0]).2)
          :: [df.cols[3], df.cols[6], df.cols[8]]) "Temperature F"
          = (df.cols[0]).2
            :: getCols [df.cols[3], df.cols[6], df.cols[8]] "Temperature F" := by
        simp [getCols]
      have hmemp : ∃ p ∈ [df.cols[3], df.cols[6], df.cols[8]],
          p.1 = "Temperature F" := by
        rcases List.mem_cons.mp hTF with h | h
        · exact ⟨df.cols[3], by simp, h.symm⟩
        · rcases List.mem_cons.mp h with h' | h'
          · exact ⟨df.cols[6], by simp, h'.symm⟩
          · rcases List.mem_cons.mp h' with h'' | h''
            · exact ⟨df.cols[8], by simp, h''.symm⟩
            · simp at h''
      obtain ⟨p, hp, hp1⟩ := hmemp
      have hmm := mem_getCols _ _ p hp hp1
      have hpos := List.length_pos.mpr (List.ne_nil_of_mem hmm)
      rw [hhd, List.length_cons]
      omega
    rw [selectUnique_multi _ _ _ _ hmulti]
    exact Or.inr (Or.inr (Or.inl rfl))
  · have hn3TF : ¬ ((df.cols[3]).1 = "Temperature F") :=
      fun hh => hTF (by rw [← hh]; exact List.mem_cons_self _ _)
    have hn6TF : ¬ ((df.cols[6]).1 = "Temperature F") :=
      fun hh => hTF (by
        rw [← hh]
        exact List.mem_cons_of_mem _ (List.mem_cons_self _ _))
    have hn8TF : ¬ ((df.cols[8]).1 = "Temperature F") :=
      fun hh => hTF (by
        rw [← hh]
        exact List.mem_cons_of_mem _
          (List.mem_cons_of_mem _ (List.mem_cons_self _ _)))
    have hTFone : getCols (("Temperature F", (df.cols[0]).2)
        :: [df.cols[3], df.cols[6], df.cols[8]]) "Temperature F"
        = [(df.cols[0]).2] := by
      simp [getCols, hn3TF, hn6TF, hn8TF]
    rw [selectUnique_single _ _ _ _ _ hTFone]
    by_cases hsw : "Surface Wind (mph)"
        ∈ [(df.cols[3]).1, (df.cols[6]).1, (df.cols[8]).1]
    · have hd : ¬ ("date" = df.indexName ∨ "date"
          ∈ [(df.cols[3]).1, (df.cols[6]).1, (df.cols[8]).1]) :=
        fun hdd => hviol ⟨hsw, hdd⟩
      push_neg at hd
      obtain ⟨hd1, hd2⟩ := hd
      have hnd1 : (labelsOf (("Temperature F", (df.cols[0]).2)
          :: [df.cols[3], df.cols[6], df.cols[8]])).Nodup := by
        rw [hlab1]
        refine List.nodup_cons.mpr ⟨hTF, ?_⟩
        refine List.nodup_cons.mpr ⟨?_, ?_⟩
        · simp [List.mem_cons, hne36, hne38]
        · refine List.nodup_cons.mpr ⟨?_, List.nodup_singleton _⟩
          simp [List.mem_cons, hne68]
      have hnd2 : (labelsOf (setCol (("Temperature F", (df.cols[0]).2)
          :: [df.cols[3], df.cols[6], df.cols[8]]) "Temperature C"
          (List.map tempFtoC (df.cols[0]).2))).Nodup :=
        labelsOf_setCol_nodup _ _ _ hnd1
      have hswmem : "Surface Wind (mph)" ∈ labelsOf
          (setCol (("Temperature F", (df.cols[0]).2)
              :: [df.cols[3], df.cols[6], df.cols[8]])
            "Temperature C" (List.map tempFtoC (df.cols[0]).2)) := by
        rw [mem_labelsOf_setCol]
        right
        rw [hlab1]
        exact List.mem_cons_of_mem _ hsw
      obtain ⟨sw, hswone⟩ := getCols_singleton _ _ hnd2 hswmem
      rw [selectUnique_single _ _ _ _ _ hswone]
      by_cases hcoll : df.indexName ∈ labelsOf (dropCols
          (setCol (setCol (("Temperature F", (df.cols[0]).2)
              :: [df.cols[3], df.cols[6], df.cols[8]])
            "Temperature C" (List.map tempFtoC (df.cols[0]).2))
            "windspeed ms" (List.map mphToMs sw))
          ["Temperature F", "Surface Wind (mph)"])
      · rw [if_pos hcoll]
        exact Or.inr (Or.inr (Or.inr rfl))
      · rw [if_neg hcoll]
        have hidx : df.indexName ≠ "date" := fun hh => hd1 hh.symm
        have hdnone : getCol (dropCols
            (setCol (setCol (("Temperature F", (df.cols[0]).2)
                :: [df.cols[3], df.cols[6], df.cols[8]])
              "Temperature C" (List.map tempFtoC (df.cols[0]).2))
              "windspeed ms" (List.map mphToMs sw))
            ["Temperature F", "Surface Wind (mph)"]) "date" = none := by
          apply getCol_eq_none
          rw [mem_labelsOf_dropCols]
          rintro ⟨hmem', _⟩
          rw [mem_labelsOf_setCol] at hmem'
          rcases hmem' with h' | h'
          · exact absurd h' (by decide)
          · rw [mem_labelsOf_setCol] at h'
            rcases h' with h'' | h''
            · exact absurd h'' (by decide)
            · rw [hlab1] at h''
              rcases List.mem_cons.mp h'' with h3' | h3'
              · exact absurd h3' (by decide)
              · exact hd2 h3'
        simp only [getCol, if_neg hidx, hdnone, bindCol]
        exact Or.inr (Or.inl trivial)
    · have hswnil : getCols (setCol (("Temperature F", (df.cols[0]).2)
            :: [df.cols[3], df.cols[6], df.cols[8]])
          "Temperature C" (List.map tempFtoC (df.cols[0]).2))
          "Surface Wind (mph)" = [] := by
        apply getCols_nil_of_not_mem
        rw [mem_labelsOf_setCol]
        rintro (h' | h')
        · exact absurd h' (by decide)
        · rw [hlab1] at h'
          rcases List.mem_cons.mp h' with h'' | h''
          · exact absurd h'' (by decide)
          · exact hsw h''
      rw [selectUnique_none _ _ _ _ hswnil]
      exact Or.inl rfl

/-- C10 witness: the amended statement instantiated at a concrete
9-column table (with `date` index) whose selected columns carry no
`Surface Wind (mph)` name: the call fails with one of the four named
errors (concretely, the `Surface Wind (mph)` key error). -/
theorem C10_met_name_requirements_witness :
    plot_met metDfNoSw = .error (.keyStr "Surface Wind (mph)") ∨
    plot_met metDfNoSw = .error (.keyStr "date") ∨
    plot_met metDfNoSw = .error (.valueError "Temperature C") ∨
    plot_met metDfNoSw = .error (.valueError metDfNoSw.indexName) :=
  C10_met_name_requirements metDfNoSw (by decide) (by decide) (by decide)

/-- C10 counterexample: a 9-column table whose column at position 6 is
named `W6` — not `Surface Wind (mph)` — yet `plot_met` succeeds, because
its column at position 3 carries the name; the claim that success
requires position 6 specifically to carry the name is false. -/
theorem C10_position6_name_not_needed :
    ((metDfSwAt3.cols[6]?).map Prod.fst = some "W6") ∧
    "W6" ≠ "Surface Wind (mph)" ∧ metOk (plot_met metDfSwAt3) = true := by
  refine ⟨rfl, by decide, ?_⟩
  rfl
